import Mathlib

/-!
Shallow embedding of the contact-book core of `src/main.py`
(classes `Field`, `Name`, `Phone`, `Birthday`, `Record`, `AddressBook`).

Python values that may be `None` are modelled as `Option`; a Python
method that may raise is modelled as returning `Except String`, the
string being the exception message.  Python `dict` (insertion ordered)
is modelled as a list of key/value pairs in insertion order.
-/

set_option autoImplicit false

/-- Python `s.isdigit()` at the granularity of this development
(ASCII decimal digits): true for a nonempty string all of whose
characters are decimal digits. -/
def pyIsdigit (s : String) : Bool :=
  !s.data.isEmpty && s.data.all Char.isDigit

/-- `Phone.validate_phone` (src/main.py:39-41): raises unless the value
is `None` or a string of exactly 10 digits.  Returns `true` when the
value passes.  The domain is `Option String`: `none` is Python `None`. -/
def validate_phone (v : Option String) : Bool :=
  match v with
  | none => true
  | some s => s.length == 10 && pyIsdigit s

/-- A `Phone` object.  `addr` is the object identity: `Phone` defines no
`__str__`/`__repr__` (only `Name` and `Birthday` do), so Python `str(p)`
falls back to the default `<__main__.Phone object at 0x...>` built from
the object address; the address is kept as an explicit field so that the
default representation is a function of the object. -/
structure Phone where
  addr : String
  value : Option String
deriving DecidableEq

/-- Python `str(p)` for a `Phone` `p`: the default object representation,
since class `Phone` inherits no `__str__`. -/
def Phone.str (p : Phone) : String :=
  "<__main__.Phone object at " ++ p.addr ++ ">"

/-- The `Phone.value` property setter (src/main.py:34-37): validates,
then assigns.  Returned pair: the object after the call and the raised
exception message, if any.  When validation raises, the assignment is
never executed, so the object is returned unchanged. -/
def Phone.setValue (p : Phone) (v : Option String) : Phone × Option String :=
  if validate_phone v then ({ p with value := v }, none)
  else (p, some "Invalid phone number format")

/-- `Phone(value)` construction: `Field.__init__` (src/main.py:6-9) sets
`_value = None` then runs the `value` setter, which validates. -/
def Phone.init (addr : String) (v : Option String) : Except String Phone :=
  match Phone.setValue { addr := addr, value := none } v with
  | (p, none) => Except.ok p
  | (_, some e) => Except.error e

/-- The stored value of a `Birthday` field: `datetime.strptime(v, '%Y-%m-%d')`
stores a structured date (year, month, day; time components zero). -/
structure Birthday where
  year : Int
  month : Nat
  day : Nat
deriving DecidableEq

/-- Python `str(x)` applied to a phone's stored value (`Option String`):
`str(None)` is `"None"`, `str` of a string is itself. -/
def pyStrOfValue : Option String → String
  | none => "None"
  | some s => s

/-- Left-pad the decimal representation of `n` with zeros to `w` digits,
as `strftime` does for `%Y`, `%m`, `%d`. -/
def padZeros (w : Nat) (n : Nat) : String :=
  let s := toString n
  String.mk (List.replicate (w - s.length) '0') ++ s

/-- `Birthday.__str__` (src/main.py:61-62): `strftime('%Y-%m-%d')`. -/
def Birthday.str (b : Birthday) : String :=
  padZeros 4 b.year.toNat ++ "-" ++ padZeros 2 b.month ++ "-" ++ padZeros 2 b.day

/-- A `Record` (src/main.py:65-105): a name (plain, unvalidated string
field), an optional birthday, and an ordered list of phones. -/
structure Record where
  name : String
  birthday : Option Birthday
  phones : List Phone
deriving DecidableEq

/-- `Record.add_phone` (src/main.py:71-72): constructs `Phone(phone)`
(which may raise on invalid input) and appends it.  `addr` is the
address of the freshly allocated object. -/
def Record.add_phone (addr : String) (r : Record) (v : Option String) :
    Except String Record :=
  (Phone.init addr v).map fun p => { r with phones := r.phones ++ [p] }

/-- `Record.remove_phone` (src/main.py:74-75): keeps the phones `p` with
`str(p) != phone`.  Note `str(p)` is the default object representation,
not the phone's value. -/
def Record.remove_phone (r : Record) (phone : String) : Record :=
  { r with phones := r.phones.filter fun p => !(Phone.str p == phone) }

/-- `Record.find_phone` (src/main.py:77-79): the value of the first
phone `p` with `str(p) == phone`, or `None` when no phone matches (the
comparison again uses the default object representation). -/
def Record.find_phone (r : Record) (phone : String) : Option String :=
  ((r.phones.filter fun p => Phone.str p == phone).head?).bind Phone.value

/-- `Record.__str__` (src/main.py:102-105). -/
def Record.str (r : Record) : String :=
  let phones_str := String.intercalate ", " (r.phones.map fun p => pyStrOfValue p.value)
  let birthday_str :=
    match r.birthday with
    | some b => ", birthday: " ++ Birthday.str b
    | none => ""
  "Contact name: " ++ r.name ++ ", phones: " ++ phones_str ++ birthday_str

example : validate_phone (some "1234567890") = true := by decide
example : validate_phone (some "123456789") = false := by decide
example : validate_phone none = true := by decide
example : Phone.str { addr := "0xa", value := some "1234567890" }
    = "<__main__.Phone object at 0xa>" := rfl

/-! ### Dates and datetimes

`days_to_birthday` works with Python naive `datetime` values.  A
datetime is modelled as a calendar date plus the number of seconds
elapsed within the day; `datetime(y, m, d)` has zero seconds, while
`datetime.now()` generally does not. -/

/-- Gregorian leap year, as Python `calendar`/`datetime` use it. -/
def isLeap (y : Int) : Bool :=
  y % 4 == 0 && (y % 100 != 0 || y % 400 == 0)

/-- Number of days in month `m` of year `y` (month `1`..`12`). -/
def daysInMonth (y : Int) (m : Nat) : Nat :=
  match m with
  | 1 => 31 | 2 => if isLeap y then 29 else 28 | 3 => 31
  | 4 => 30 | 5 => 31 | 6 => 30 | 7 => 31 | 8 => 31
  | 9 => 30 | 10 => 31 | 11 => 30 | 12 => 31
  | _ => 0

/-- The argument ranges accepted by Python `datetime(year, month, day)`:
`1 <= year <= 9999`, a valid month and a valid day of that month. -/
def validDate (y : Int) (m d : Nat) : Bool :=
  1 ≤ y && y ≤ 9999 && 1 ≤ m && m ≤ 12 && 1 ≤ d && d ≤ daysInMonth y m

/-- Days elapsed since 1970-01-01 for the civil date `y-m-d`
(the standard days-from-civil computation over the proleptic
Gregorian calendar, which is the calendar of Python `datetime`). -/
def daysFromCivil (y : Int) (m d : Nat) : Int :=
  let yy : Int := if m ≤ 2 then y - 1 else y
  let era : Int := yy.fdiv 400
  let yoe : Int := yy - era * 400
  let mp : Int := (m + 9) % 12
  let doy : Int := (153 * mp + 2).fdiv 5 + d - 1
  let doe : Int := yoe * 365 + yoe.fdiv 4 - yoe.fdiv 100 + doy
  era * 146097 + doe - 719468

/-- A naive Python `datetime`: calendar date plus seconds within the day
(`datetime` also carries microseconds; seconds granularity suffices for
the day-difference arithmetic modelled here). -/
structure PyDateTime where
  year : Int
  month : Nat
  day : Nat
  secs : Nat
deriving DecidableEq

/-- `datetime(y, m, d)`: midnight of `y-m-d`, raising `ValueError` when
the arguments do not form a valid date. -/
def mkDatetime (y : Int) (m d : Nat) : Except String PyDateTime :=
  if validDate y m d then Except.ok { year := y, month := m, day := d, secs := 0 }
  else Except.error "day is out of range for month"

/-- Total seconds of a datetime since the epoch; datetime comparison and
subtraction are chronological, i.e. governed by this quantity. -/
def PyDateTime.totalSecs (dt : PyDateTime) : Int :=
  daysFromCivil dt.year dt.month dt.day * 86400 + dt.secs

/-- `(b - a).days` for Python datetimes: `timedelta` normalises so that
`.days` is the floor of the difference measured in days. -/
def timedeltaDays (b a : PyDateTime) : Int :=
  (b.totalSecs - a.totalSecs).fdiv 86400

/-- `Record.days_to_birthday` (src/main.py:92-100).  The method reads
the clock itself (`datetime.now()`); the embedding passes that reading
as the explicit argument `now`.  Returns `none` when no birthday is set
(Python `None`); otherwise the computation may raise (for a Feb 29
birthday in a year where the candidate date is invalid), hence the
`Except`.  Note the roll-over test `today > next_birthday` compares the
full datetime `now` against midnight of the candidate date. -/
def Record.days_to_birthday (now : PyDateTime) (r : Record) :
    Option (Except String Int) :=
  match r.birthday with
  | none => none
  | some b =>
    some (do
      let nb ← mkDatetime now.year b.month b.day
      let nb ←
        if now.totalSecs > nb.totalSecs then
          mkDatetime (now.year + 1) b.month b.day
        else
          pure nb
      pure (timedeltaDays nb now))

example : daysFromCivil 1970 1 1 = 0 := by decide
example : daysFromCivil 1970 1 2 = 1 := by decide
example : daysFromCivil 1969 12 31 = -1 := by decide
example : daysFromCivil 2000 3 1 = 11017 := by decide
example : daysFromCivil 2024 6 15 - daysFromCivil 2023 6 15 = 366 := by decide

/-! ### AddressBook

`AddressBook` subclasses `UserDict`: `self.data` is an
insertion-ordered `dict` from name string to `Record`, modelled as a
list of key/value pairs in insertion order. -/

/-- Python `name.lower()` at the granularity of this development:
lowercase each character. -/
def pyLower (s : String) : String :=
  String.mk (s.data.map Char.toLower)

structure AddressBook where
  data : List (String × Record)
  page_size : Nat
  current_page : Int
deriving DecidableEq

/-- `AddressBook()` (src/main.py:109-112). -/
def AddressBook.empty : AddressBook :=
  { data := [], page_size := 5, current_page := 1 }

/-- The dict's values in insertion order (`self.data.values()`). -/
def AddressBook.values (book : AddressBook) : List Record :=
  book.data.map Prod.snd

/-- `dict` assignment `d[k] = r`: update the entry holding key `k` in
place when present (a dict holds each key once, so updating the first
occurrence is exact), otherwise append a new entry. -/
def dictInsert : List (String × Record) → String → Record → List (String × Record)
  | [], k, r => [(k, r)]
  | kv :: rest, k, r =>
    if kv.1 == k then (k, r) :: rest else kv :: dictInsert rest k r

/-- Mutate the first record whose lowercased name is `low` by extending
its phone list with `ps` (`existing_record.phones.extend(record.phones)`
on the record produced by `next(...)` in src/main.py:116-117). -/
def extendPhonesFirst : List (String × Record) → String → List Phone → List (String × Record)
  | [], _, _ => []
  | kv :: rest, low, ps =>
    if pyLower kv.2.name == low then
      (kv.1, { kv.2 with phones := kv.2.phones ++ ps }) :: rest
    else
      kv :: extendPhonesFirst rest low ps

/-- `AddressBook.add_record` (src/main.py:114-119): when some existing
record's lowercased name equals the new record's lowercased name, the
first such record absorbs the new record's phones; otherwise the record
is stored under its exact-case name. -/
def AddressBook.add_record (book : AddressBook) (r : Record) : AddressBook :=
  if book.data.any (fun kv => pyLower kv.2.name == pyLower r.name) then
    { book with data := extendPhonesFirst book.data (pyLower r.name) r.phones }
  else
    { book with data := dictInsert book.data r.name r }

/-- `AddressBook.find` (src/main.py:121-123): first record whose
lowercased name equals the lowercased query, else `None`. -/
def AddressBook.find (book : AddressBook) (name : String) : Option Record :=
  book.values.find? fun r => pyLower r.name == pyLower name

/-- `del d[k]`: remove the entry holding key `k` (present exactly once
in a dict). -/
def dictRemove : List (String × Record) → String → List (String × Record)
  | [], _ => []
  | kv :: rest, k => if kv.1 == k then rest else kv :: dictRemove rest k

/-- `AddressBook.delete` (src/main.py:125-128): resolve the record by
case-insensitive name, then delete the dict entry under the resolved
record's exact-case name; no-op when no record matches. -/
def AddressBook.delete (book : AddressBook) (name : String) : AddressBook :=
  match book.values.find? (fun r => pyLower r.name == pyLower name) with
  | none => book
  | some r => { book with data := dictRemove book.data r.name }

/-- Python list slicing `l[a:b]`: a negative index counts from the end
of the list (clamped below at `0`), a nonnegative index is clamped
above at the length; the result is the elements from the resolved start
(inclusive) to the resolved stop (exclusive), empty when start ≥ stop. -/
def pySlice {α : Type} (l : List α) (a b : Int) : List α :=
  let n := l.length
  let s : Nat := if a < 0 then (a + n).toNat else min a.toNat n
  let e : Nat := if b < 0 then (b + n).toNat else min b.toNat n
  (l.drop s).take (e - s)

/-- `AddressBook.get_page` (src/main.py:141-144):
`list(self.data.values())[start_index:end_index]` with
`start_index = (page_number - 1) * page_size` and
`end_index = start_index + page_size`. -/
def AddressBook.get_page (book : AddressBook) (page_number : Int) : List Record :=
  let start_index : Int := (page_number - 1) * book.page_size
  let end_index : Int := start_index + book.page_size
  pySlice book.values start_index end_index

/-- One loop iteration of `AddressBook.get_n_records`
(src/main.py:150-158): each iteration calls `next(self.record_iterator())`
on a FRESH generator, so it yields `str` of the first record every time,
and raises `StopIteration` (breaking the loop) only when the book is
empty.  `first` is `str` of the first record, if any. -/
def getNRecordsLoop : Nat → Option String → List String
  | 0, _ => []
  | _ + 1, none => []
  | k + 1, some s => s :: getNRecordsLoop k (some s)

/-- `AddressBook.get_n_records` (src/main.py:150-158): `range(n)` is
empty for `n <= 0` (`Int.toNat` maps nonpositive `n` to `0`). -/
def AddressBook.get_n_records (book : AddressBook) (n : Int) : List String :=
  getNRecordsLoop n.toNat ((book.values.head?).map Record.str)

example :
    pySlice [0, 1, 2, 3, 4, 5, 6] (-10 : Int) (-5 : Int) = [0, 1] := by decide
example : pySlice [0, 1, 2, 3, 4, 5, 6] (5 : Int) (10 : Int) = [5, 6] := by decide
example : pySlice [0, 1, 2, 3, 4, 5, 6] (-5 : Int) (0 : Int) = ([] : List Nat) := by
  decide

/-! ### Concrete fixtures used by the evaluation theorems -/

/-- A `Phone` object holding the value `"1234567890"`. -/
def phoneBob : Phone := { addr := "0x7f3a2c1b9d30", value := some "1234567890" }

/-- A record whose phone list contains exactly `phoneBob`. -/
def recBob : Record := { name := "Bob", birthday := none, phones := [phoneBob] }

/-- A record with two phones, used for order-preservation checks. -/
def recAnn : Record :=
  { name := "Ann", birthday := none,
    phones := [{ addr := "0x1", value := some "1112223333" }] }

/-- A second, distinct record. -/
def recBen : Record :=
  { name := "Ben", birthday := none,
    phones := [{ addr := "0x2", value := some "4445556666" }] }

/-- A book holding `recAnn` then `recBen`, in that insertion order. -/
def bookAB : AddressBook :=
  { data := [("Ann", recAnn), ("Ben", recBen)], page_size := 5, current_page := 1 }

/-- C1: the spec says `findPhone(raw)` returns the first phone whose
value equals `raw`, and in particular finds `"1234567890"` once a phone
with that value is present.  The code compares `str(p)` — the default
object representation `<__main__.Phone object at 0x...>`, since `Phone`
defines no `__str__` — so no phone ever matches a digit string: with a
phone of value `"1234567890"` present, `find_phone "1234567890"`
returns `None`. -/
theorem find_phone_misses_present_value :
    recBob.phones = [phoneBob] ∧ phoneBob.value = some "1234567890" ∧
    Record.find_phone recBob "1234567890" = none :=
  ⟨rfl, rfl, rfl⟩

/-- C2: the spec says `removePhone(raw)` removes every phone whose
formatted value equals `raw`.  The code filters on `str(p) != phone`
where `str(p)` is the default object representation, which never equals
a digit string, so nothing is ever removed: removing `"1234567890"`
from a record holding a phone with exactly that value leaves the record
unchanged. -/
theorem remove_phone_removes_nothing :
    phoneBob.value = some "1234567890" ∧
    Record.remove_phone recBob "1234567890" = recBob :=
  ⟨rfl, rfl⟩

/-- C3: the spec says `getFirstN(n)` returns the first
`min(n, size)` records in insertion order.  The code calls
`next(self.record_iterator())` on a fresh generator at every loop
iteration, so it returns `n` copies of the first record's string
instead: on a two-record book, `get_n_records 2` yields the first
record's string twice (and never the second record's string). -/
theorem get_n_records_repeats_first :
    bookAB.get_n_records 2 = [Record.str recAnn, Record.str recAnn] ∧
    Record.str recAnn ≠ Record.str recBen ∧
    bookAB.values = [recAnn, recBen] := by
  refine ⟨rfl, ?_, rfl⟩
  decide

/-- A record whose birthday is 1990-06-15. -/
def recBirthday : Record :=
  { name := "Bob", birthday := some { year := 1990, month := 6, day := 15 },
    phones := [] }

/-- Noon of 2023-06-15, a possible reading of `datetime.now()` on the
very day of `recBirthday`'s birthday. -/
def nowNoon : PyDateTime := { year := 2023, month := 6, day := 15, secs := 43200 }

/-- C4: the spec says that when the birthday's month/day equals `now`'s
month/day the result is 0.  The code compares the full `datetime.now()`
against midnight of the candidate date (`today > next_birthday`), so at
noon of the birthday itself it rolls over to next year's occurrence and
returns 365, not 0. -/
theorem days_to_birthday_today_not_zero :
    recBirthday.birthday = some { year := 1990, month := 6, day := 15 } ∧
    nowNoon.month = 6 ∧ nowNoon.day = 15 ∧
    Record.days_to_birthday nowNoon recBirthday = some (Except.ok 365) :=
  ⟨rfl, rfl, rfl, rfl⟩

/-- C6: the `Phone.value` setter validates before assigning, so a call
either raises (second component `some` message) with the object exactly
as it was, or succeeds (second component `none`) with the stored value
becoming exactly the candidate; success happens precisely when the
candidate passes `validate_phone`. -/
theorem set_value_atomic (p : Phone) (v : Option String) :
    ((Phone.setValue p v).2 = none ↔ validate_phone v = true) ∧
    ((Phone.setValue p v).2 = none →
      (Phone.setValue p v).1 = { p with value := v }) ∧
    ((Phone.setValue p v).2 ≠ none → (Phone.setValue p v).1 = p) := by
  unfold Phone.setValue
  by_cases h : validate_phone v = true <;> simp [h]

/-- Witness for `set_value_atomic`: a failing assignment on a concrete
phone leaves it unchanged, and a succeeding one stores the candidate. -/
theorem set_value_atomic_witness :
    (Phone.setValue phoneBob (some "12")).1 = phoneBob ∧
    (Phone.setValue phoneBob (some "0987654321")).1
      = { phoneBob with value := some "0987654321" } :=
  ⟨(set_value_atomic phoneBob (some "12")).2.2 (by decide),
   (set_value_atomic phoneBob (some "0987654321")).2.1 (by decide)⟩

/-- `validate_phone` on a string value, phrased elementwise. -/
theorem validate_phone_some_iff (s : String) :
    validate_phone (some s) = true ↔
      (s.length = 10 ∧ ∀ c ∈ s.data, c.isDigit = true) := by
  have hlen : s.length = s.data.length := rfl
  constructor
  · intro h
    simp only [validate_phone, pyIsdigit, Bool.and_eq_true, beq_iff_eq,
      List.all_eq_true] at h
    exact ⟨h.1, h.2.2⟩
  · rintro ⟨h10, hall⟩
    simp only [validate_phone, pyIsdigit, Bool.and_eq_true, beq_iff_eq,
      List.all_eq_true]
    refine ⟨h10, ?_, hall⟩
    rw [hlen] at h10
    cases hd : s.data with
    | nil => rw [hd] at h10; simp at h10
    | cons a l => simp

/-- `Phone(value)` construction, as an `if` on the validator. -/
theorem phone_init_eq (addr : String) (v : Option String) :
    Phone.init addr v =
      if validate_phone v then Except.ok { addr := addr, value := v }
      else Except.error "Invalid phone number format" := by
  unfold Phone.init Phone.setValue
  by_cases h : validate_phone v = true <;> simp [h]

/-- C8: constructing a `Phone` from a string succeeds exactly when the
string has 10 characters, all decimal digits, the stored value then
being that string; every other string is rejected with the
`ValueError("Invalid phone number format")` raised by
`validate_phone`. -/
theorem phone_construction_iff_ten_digits (addr s : String) :
    ((∃ p, Phone.init addr (some s) = Except.ok p) ↔
      (s.length = 10 ∧ ∀ c ∈ s.data, c.isDigit = true)) ∧
    ((s.length = 10 ∧ ∀ c ∈ s.data, c.isDigit = true) →
      Phone.init addr (some s) = Except.ok { addr := addr, value := some s }) ∧
    (¬ (s.length = 10 ∧ ∀ c ∈ s.data, c.isDigit = true) →
      Phone.init addr (some s) = Except.error "Invalid phone number format") := by
  rw [phone_init_eq]
  by_cases h : validate_phone (some s) = true
  · have hd := (validate_phone_some_iff s).mp h
    rw [if_pos h]
    exact ⟨⟨fun _ => hd, fun _ => ⟨_, rfl⟩⟩, fun _ => rfl,
      fun hc => absurd hd hc⟩
  · have hd : ¬ (s.length = 10 ∧ ∀ c ∈ s.data, c.isDigit = true) :=
      fun hc => h ((validate_phone_some_iff s).mpr hc)
    rw [if_neg h]
    refine ⟨⟨fun hex => ?_, fun hc => absurd hc hd⟩,
      fun hc => absurd hc hd, fun _ => rfl⟩
    obtain ⟨p, hp⟩ := hex
    exact Except.noConfusion hp

/-- Witness for `phone_construction_iff_ten_digits`: a valid and an
invalid concrete string. -/
theorem phone_construction_witness :
    Phone.init "0x3" (some "1234567890")
      = Except.ok { addr := "0x3", value := some "1234567890" } ∧
    Phone.init "0x3" (some "12x")
      = Except.error "Invalid phone number format" :=
  ⟨(phone_construction_iff_ten_digits "0x3" "1234567890").2.1 (by decide),
   (phone_construction_iff_ten_digits "0x3" "12x").2.2 (by decide)⟩

/-- The record stored for Alice. -/
def recAlice : Record := { name := "Alice", birthday := none, phones := [] }

/-- The book obtained by `add_record` of Alice into an empty book. -/
def bookAlice : AddressBook := AddressBook.empty.add_record recAlice

/-- C9: `find` lowercases both sides, so any two queries with the same
lowercasing resolve identically, `find` returns `None` exactly when no
record's name matches case-insensitively, and after adding
`Record("Alice")` the queries `"Alice"`, `"ALICE"` and `"alice"` all
return that same record. -/
theorem find_case_insensitive :
    (∀ (book : AddressBook) (n1 n2 : String), pyLower n1 = pyLower n2 →
      book.find n1 = book.find n2) ∧
    (∀ (book : AddressBook) (name : String),
      book.find name = none ↔
        ∀ r ∈ book.values, ¬ pyLower r.name = pyLower name) ∧
    (bookAlice.find "Alice" = some recAlice ∧
      bookAlice.find "ALICE" = some recAlice ∧
      bookAlice.find "alice" = some recAlice) := by
  refine ⟨?_, ?_, by decide, by decide, by decide⟩
  · intro book n1 n2 h
    unfold AddressBook.find
    rw [h]
  · intro book name
    unfold AddressBook.find
    rw [List.find?_eq_none]
    simp

/-- Witness for `find_case_insensitive`: two concrete casings of the
same name resolve to the same result on a concrete book. -/
theorem find_case_insensitive_witness :
    bookAB.find "ANN" = bookAB.find "ann" :=
  find_case_insensitive.1 bookAB "ANN" "ann" (by decide)

/-! ### The case-insensitive uniqueness invariant (C5) -/

/-- The lowercased names of a book's records, in insertion order. -/
def lowNames (l : List (String × Record)) : List String :=
  l.map fun kv => pyLower kv.2.name

/-- Reachable-state invariant of `AddressBook.data`: every entry is
keyed by its record's exact-case name (the key written by `add_record`),
and the lowercased names are pairwise distinct — at most one record per
case-insensitive name. -/
def BookInv (book : AddressBook) : Prop :=
  (∀ kv ∈ book.data, kv.1 = kv.2.name) ∧ (lowNames book.data).Nodup

theorem lowNames_extendPhonesFirst (l : List (String × Record)) (low : String)
    (ps : List Phone) : lowNames (extendPhonesFirst l low ps) = lowNames l := by
  induction l with
  | nil => rfl
  | cons kv rest ih =>
    unfold extendPhonesFirst
    by_cases h : (pyLower kv.2.name == low) = true
    · simp [h, lowNames]
    · simp only [h, if_false, Bool.false_eq_true, lowNames, List.map_cons]
      rw [show List.map (fun kv => pyLower kv.2.name)
            (extendPhonesFirst rest low ps) = lowNames (extendPhonesFirst rest low ps)
          from rfl, ih]
      rfl

theorem length_extendPhonesFirst (l : List (String × Record)) (low : String)
    (ps : List Phone) : (extendPhonesFirst l low ps).length = l.length := by
  induction l with
  | nil => rfl
  | cons kv rest ih =>
    unfold extendPhonesFirst
    by_cases h : (pyLower kv.2.name == low) = true
    · simp [h]
    · simp [h, ih]

theorem keysMatch_extendPhonesFirst (l : List (String × Record)) (low : String)
    (ps : List Phone) (h : ∀ kv ∈ l, kv.1 = kv.2.name) :
    ∀ kv ∈ extendPhonesFirst l low ps, kv.1 = kv.2.name := by
  induction l with
  | nil => intro kv hkv; cases hkv
  | cons kv rest ih =>
    unfold extendPhonesFirst
    by_cases hc : (pyLower kv.2.name == low) = true
    · simp only [hc, if_true]
      intro x hx
      rcases List.mem_cons.mp hx with hx | hx
      · rw [hx]
        exact h kv (List.mem_cons_self kv rest)
      · exact h x (List.mem_cons_of_mem kv hx)
    · simp only [hc, if_false, Bool.false_eq_true]
      intro x hx
      rcases List.mem_cons.mp hx with hx | hx
      · rw [hx]
        exact h kv (List.mem_cons_self kv rest)
      · exact ih (fun y hy => h y (List.mem_cons_of_mem kv hy)) x hx

theorem extendPhonesFirst_decompose (pre : List (String × Record)) (k : String)
    (x : Record) (post : List (String × Record)) (low : String) (ps : List Phone)
    (hpre : ∀ y ∈ pre, ¬ pyLower y.2.name = low) (hx : pyLower x.name = low) :
    extendPhonesFirst (pre ++ (k, x) :: post) low ps
      = pre ++ (k, { x with phones := x.phones ++ ps }) :: post := by
  induction pre with
  | nil =>
    unfold extendPhonesFirst
    simp [hx]
  | cons y rest ih =>
    unfold extendPhonesFirst
    have hy : ¬ (pyLower y.2.name == low) = true := by
      simpa using hpre y (List.mem_cons_self y rest)
    simp only [List.cons_append, hy, if_false, Bool.false_eq_true,
      List.cons.injEq, true_and]
    exact ih fun z hz => hpre z (List.mem_cons_of_mem y hz)

theorem dictInsert_of_fresh (l : List (String × Record)) (k : String) (r : Record)
    (h : ∀ kv ∈ l, ¬ kv.1 = k) : dictInsert l k r = l ++ [(k, r)] := by
  induction l with
  | nil => rfl
  | cons kv rest ih =>
    unfold dictInsert
    have hk : ¬ (kv.1 == k) = true := by
      simpa using h kv (List.mem_cons_self kv rest)
    simp only [hk, if_false, Bool.false_eq_true, List.cons_append,
      List.cons.injEq, true_and]
    exact ih fun y hy => h y (List.mem_cons_of_mem kv hy)

theorem dictRemove_sublist (l : List (String × Record)) (k : String) :
    (dictRemove l k).Sublist l := by
  induction l with
  | nil => exact List.Sublist.refl _
  | cons kv rest ih =>
    unfold dictRemove
    by_cases h : (kv.1 == k) = true
    · simp only [h, if_true]
      exact List.sublist_cons_self kv rest
    · simp only [h, if_false, Bool.false_eq_true]
      exact ih.cons₂ kv

/-- C5: on books satisfying the reachable-state invariant, `add_record`
preserves the invariant; when some record's name matches the new
record's name case-insensitively, the first such record absorbs the new
record's phones in place — all other entries, the order, and the entry
count are unchanged; when none matches, the record is appended under
its exact-case name.  `delete` also preserves the invariant.  In
particular, adding the same name twice (in any casing) with different
phone lists yields a single record holding the concatenation of both
lists. -/
theorem add_record_merges_case_insensitively :
    (∀ (book : AddressBook) (r : Record), BookInv book →
      BookInv (book.add_record r) ∧
      (∀ (pre : List (String × Record)) (k : String) (x : Record)
          (post : List (String × Record)),
        book.data = pre ++ (k, x) :: post →
        (∀ y ∈ pre, ¬ pyLower y.2.name = pyLower r.name) →
        pyLower x.name = pyLower r.name →
        (book.add_record r).data
          = pre ++ (k, { x with phones := x.phones ++ r.phones }) :: post) ∧
      ((∃ x ∈ book.values, pyLower x.name = pyLower r.name) →
        (book.add_record r).data.length = book.data.length) ∧
      ((∀ x ∈ book.values, ¬ pyLower x.name = pyLower r.name) →
        (book.add_record r).data = book.data ++ [(r.name, r)])) ∧
    (∀ (book : AddressBook) (name : String), BookInv book →
      BookInv (book.delete name)) ∧
    (∀ (n1 n2 : String) (b1 b2 : Option Birthday) (ps1 ps2 : List Phone),
      pyLower n1 = pyLower n2 →
      ((AddressBook.empty.add_record
          { name := n1, birthday := b1, phones := ps1 }).add_record
          { name := n2, birthday := b2, phones := ps2 }).data
        = [(n1, { name := n1, birthday := b1, phones := ps1 ++ ps2 })]) := by
  refine ⟨?_, ?_, ?_⟩
  · intro book r hinv
    by_cases hc :
        (book.data.any fun kv => pyLower kv.2.name == pyLower r.name) = true
    · have hdata : (book.add_record r).data
          = extendPhonesFirst book.data (pyLower r.name) r.phones := by
        unfold AddressBook.add_record
        rw [if_pos hc]
      refine ⟨⟨?_, ?_⟩, ?_, ?_, ?_⟩
      · rw [hdata]
        exact keysMatch_extendPhonesFirst book.data (pyLower r.name) r.phones hinv.1
      · rw [hdata, lowNames_extendPhonesFirst]
        exact hinv.2
      · intro pre k x post hsplit hpre hx
        rw [hdata, hsplit]
        exact extendPhonesFirst_decompose pre k x post (pyLower r.name) r.phones
          hpre hx
      · intro _
        rw [hdata, length_extendPhonesFirst]
      · intro hnone
        exfalso
        obtain ⟨kv, hkv, hmatch⟩ := List.any_eq_true.mp hc
        exact hnone kv.2 (List.mem_map.mpr ⟨kv, hkv, rfl⟩) (by simpa using hmatch)
    · have hfresh : ∀ kv ∈ book.data, ¬ kv.1 = r.name := by
        intro kv hkv hk
        have := List.any_eq_false.mp (Bool.not_eq_true _ ▸ hc) kv hkv
        apply this
        rw [beq_iff_eq, ← hinv.1 kv hkv, hk]
      have hdata : (book.add_record r).data = book.data ++ [(r.name, r)] := by
        unfold AddressBook.add_record
        rw [if_neg hc]
        exact dictInsert_of_fresh book.data r.name r hfresh
      have hnotin : pyLower r.name ∉ lowNames book.data := by
        intro hmem
        obtain ⟨kv, hkv, heq⟩ := List.mem_map.mp hmem
        have := List.any_eq_false.mp (Bool.not_eq_true _ ▸ hc) kv hkv
        apply this
        rw [beq_iff_eq, heq]
      refine ⟨⟨?_, ?_⟩, ?_, ?_, fun _ => hdata⟩
      · rw [hdata]
        intro kv hkv
        rcases List.mem_append.mp hkv with hkv | hkv
        · exact hinv.1 kv hkv
        · rcases List.mem_singleton.mp hkv with rfl
          rfl
      · rw [hdata]
        unfold lowNames
        rw [List.map_append]
        rw [List.nodup_append]
        refine ⟨hinv.2, List.nodup_singleton _, ?_⟩
        intro a ha hb
        rcases List.mem_singleton.mp hb with rfl
        exact hnotin ha
      · intro pre k x post hsplit hpre hx
        exfalso
        have hkxmem : (k, x) ∈ book.data := by
          rw [hsplit]
          exact List.mem_append_right pre (List.mem_cons_self (k, x) post)
        have := List.any_eq_false.mp (Bool.not_eq_true _ ▸ hc) (k, x) hkxmem
        exact this (beq_iff_eq.mpr hx)
      · intro hsome
        exfalso
        obtain ⟨x, hxmem, hxeq⟩ := hsome
        obtain ⟨kv, hkv, rfl⟩ := List.mem_map.mp hxmem
        have := List.any_eq_false.mp (Bool.not_eq_true _ ▸ hc) kv hkv
        exact this (beq_iff_eq.mpr hxeq)
  · intro book name hinv
    unfold AddressBook.delete
    cases hf : book.values.find? fun r => pyLower r.name == pyLower name with
    | none => exact hinv
    | some r =>
      refine ⟨?_, ?_⟩
      · intro kv hkv
        exact hinv.1 kv ((dictRemove_sublist book.data r.name).subset hkv)
      · exact hinv.2.sublist ((dictRemove_sublist book.data r.name).map _)
  · intro n1 n2 b1 b2 ps1 ps2 h
    simp [AddressBook.add_record, AddressBook.empty, dictInsert,
      extendPhonesFirst, h]

/-- A record named `"ANN"`, an alternate casing of `recAnn`'s name. -/
def recAnnUpper : Record :=
  { name := "ANN", birthday := none,
    phones := [{ addr := "0x5", value := some "0987654321" }] }

/-- Witness for `add_record_merges_case_insensitively`: adding `"ANN"`
into a book already holding `"Ann"` merges the phone lists into the
existing entry, keeping the entry count at two. -/
theorem add_record_merge_witness :
    BookInv (bookAB.add_record recAnnUpper) ∧
    (bookAB.add_record recAnnUpper).data
      = [("Ann", { name := "Ann", birthday := none,
                   phones := recAnn.phones ++ recAnnUpper.phones }),
         ("Ben", recBen)] := by
  have hinv : BookInv bookAB := ⟨by decide, by decide⟩
  have h := add_record_merges_case_insensitively.1 bookAB recAnnUpper hinv
  refine ⟨h.1, ?_⟩
  have hd := h.2.1 [] "Ann" recAnn [("Ben", recBen)] rfl (by simp) (by decide)
  simpa using hd

/-- A record with no phones, used to exhibit `None` storage. -/
def recCara : Record := { name := "Cara", birthday := none, phones := [] }

/-- C10: `validate_phone` only rejects non-`None` values that are not
10-digit strings, so `Phone(None)` succeeds, stores `None`, and
`Record.add_phone` accepts it, putting a valueless phone into the
record's phone list. -/
theorem phone_none_construction_succeeds :
    validate_phone none = true ∧
    Phone.init "0x9" none = Except.ok { addr := "0x9", value := none } ∧
    Record.add_phone "0x9" recCara none
      = Except.ok { name := "Cara", birthday := none,
                    phones := [{ addr := "0x9", value := none }] } :=
  ⟨rfl, rfl, rfl⟩

/-! ### Pagination (C7) -/

/-- A simple record named after an index, for the pagination example. -/
def recP (i : Nat) : Record :=
  { name := "p" ++ toString i, birthday := none, phones := [] }

/-- A book holding seven records with the default page size of 5. -/
def book7 : AddressBook :=
  { data := [("p0", recP 0), ("p1", recP 1), ("p2", recP 2), ("p3", recP 3),
             ("p4", recP 4), ("p5", recP 5), ("p6", recP 6)],
    page_size := 5, current_page := 1 }

/-- C7 counterexample: the claim says every page number `<= 0` yields an
empty sequence, but `get_page (-1)` computes the Python slice
`[-10:-5]`, which on a 7-record listing resolves to indices `[0:2)`:
the first two records, not an empty sequence. -/
theorem get_page_negative_not_empty :
    book7.get_page (-1) = [recP 0, recP 1] ∧ book7.get_page (-1) ≠ [] := by
  refine ⟨by decide, by decide⟩

/-- C7 (amended): for every page number `p >= 1`, `get_page p` returns
exactly the records at indices `[(p-1)*page_size, p*page_size)` of the
insertion-ordered listing (clamped to its end), and every page past the
end is empty.  For `p <= 0` the code resolves the slice bounds by
Python negative indexing, which can return a nonempty sequence. -/
theorem get_page_positive_slice (book : AddressBook) (p : Int) (hp : 1 ≤ p) :
    book.get_page p
      = (book.values.drop ((p - 1).toNat * book.page_size)).take book.page_size ∧
    (book.values.length ≤ (p - 1).toNat * book.page_size →
      book.get_page p = []) := by
  have key : book.get_page p
      = (book.values.drop ((p - 1).toNat * book.page_size)).take book.page_size := by
    obtain ⟨A, hA⟩ : ∃ A : Nat, (p - 1 : Int) = (A : Int) :=
      ⟨(p - 1).toNat, (Int.toNat_of_nonneg (by omega)).symm⟩
    have hAtoNat : (p - 1).toNat = A := by omega
    simp only [AddressBook.get_page, pySlice, hA, hAtoNat, Int.toNat_ofNat]
    have e2 : (A : Int) * (book.page_size : Int) + (book.page_size : Int)
        = ((A * book.page_size + book.page_size : Nat) : Int) := by
      push_cast
      ring
    have e1 : (A : Int) * (book.page_size : Int)
        = ((A * book.page_size : Nat) : Int) := by
      push_cast
      ring
    rw [e2, e1]
    rw [if_neg (by omega), if_neg (by omega), Int.toNat_ofNat, Int.toNat_ofNat]
    by_cases hcase : A * book.page_size ≤ book.values.length
    · rw [Nat.min_eq_left hcase, List.take_eq_take, List.length_drop]
      omega
    · push_neg at hcase
      rw [Nat.min_eq_right (Nat.le_of_lt hcase), List.drop_length,
        List.drop_eq_nil_of_le (Nat.le_of_lt hcase)]
      simp
  refine ⟨key, fun hle => ?_⟩
  rw [key, List.drop_eq_nil_of_le hle]
  simp

/-- Witness for `get_page_positive_slice`: the second page of a
seven-record book with page size 5. -/
theorem get_page_positive_slice_witness :
    book7.get_page 2
      = (book7.values.drop (((2 : Int) - 1).toNat * book7.page_size)).take
          book7.page_size :=
  (get_page_positive_slice book7 2 (by decide)).1
